import Mathlib

/-
Verification of the boostfs filesystem library (src/filesystem.h, src/filesystem.cpp)
against its natural-language specification.

Shallow embedding conventions:
  * Path strings are List Char (POSIX build: no backslash handling, the
    _WIN32 branches are compiled out; forward_slashes is a no-op).
  * std::string::npos results are modelled with Option Nat.
  * size_t wraparound in the C++ (pos-2 when pos < 2; the erase counts
    pos-j+1 and pos-j+2 when j exceeds pos+1 resp. pos+2) is modelled by
    explicit case splits that reproduce exactly what the C++ computes.
  * The host OS filesystem (an external collaborator per the spec) is a
    World value: which paths are directories/regular files, the readdir
    listing of each directory, and per-path failure knobs for unlink,
    rmdir, opendir and mkdir.  Syscalls thread the World explicitly.
  * Functions that can throw (std::runtime_error) return Except/Option or
    a result constructor marking the exception.
  * The unbounded while loops (canonical's scan, remove_all's frame loop)
    take explicit fuel; a result of none means the C++ loop runs forever
    (fuel bounds are chosen to exceed the iteration count of every
    terminating run, see the comments at canonical and remove_all).
-/

namespace boostfs

/-- POSIX branch of is_slash (filesystem.cpp:46-53): only the forward slash. -/
def is_slash (c : Char) : Bool := c = '/'

/-- Helper for std::string::find(c, pos): scan the suffix starting at pos,
reporting the absolute index of the first hit. -/
def findFromGo (c : Char) : List Char → Nat → Option Nat
  | [], _ => none
  | d :: rest, i => if d = c then some i else findFromGo c rest (i+1)

/-- std::string::find(c, pos): least index ge pos holding c, none for npos. -/
def findFrom (c : Char) (s : List Char) (pos : Nat) : Option Nat :=
  findFromGo c (s.drop pos) pos

/-- std::string::rfind(c, j): greatest index le j holding c, none for npos.
Indices past the end are skipped, matching rfind's clamp to size-1. -/
def rfindLe (c : Char) (s : List Char) : Nat → Option Nat
  | 0 => if s[0]? = some c then some 0 else none
  | j+1 => if s[j+1]? = some c then some (j+1) else rfindLe c s j

/-- std::string::erase(j, cnt): drop cnt characters starting at index j. -/
def eraseCnt (s : List Char) (j cnt : Nat) : List Char :=
  s.take j ++ s.drop (j + cnt)

/-- The rfind('/', pos-2) calls inside canonical (filesystem.cpp:319,324,328,333).
pos is always ge 1 there; for pos = 1 the size_t subtraction pos-2 wraps to
SIZE_MAX and rfind then searches the whole string, which is what the
s.length bound reproduces. -/
def rfindArg (s : List Char) (q : Nat) : Option Nat :=
  if 2 ≤ q then rfindLe '/' s (q - 2) else rfindLe '/' s s.length

/-- Path::operator+ (filesystem.cpp:106-109): raw string concatenation. -/
def op_plus (a b : List Char) : List Char := a ++ b

/-- Path::operator/ (filesystem.cpp:110-115).  The C++ reads s.back()
unconditionally; on an empty left operand std::string::back is undefined
behaviour, modelled here by the none branch of getLast?. -/
def op_div (a b : List Char) : Option (List Char) :=
  match a.getLast? with
  | none => none
  | some c => if is_slash c then some (a ++ b) else some (a ++ '/' :: b)

/-- Path::operator/= (filesystem.cpp:164-171): same last-character read and
branch as operator/, producing the same string. -/
def op_div_assign (a b : List Char) : Option (List Char) :=
  match a.getLast? with
  | none => none
  | some c => if is_slash c then some (a ++ b) else some (a ++ '/' :: b)

/-- Total version of operator/ used where the C++ joins onto a path that is
known non-empty (complete's cwd buffer, a directory_entry's base path);
agrees with op_div on every non-empty left operand. -/
def joinT (a b : List Char) : List Char :=
  if a.getLast? = some '/' then a ++ b else a ++ '/' :: b

/-- Path::filename (filesystem.cpp:172-178): substring after the last slash,
or the whole string when no slash occurs (last_slash is rfind('/') on POSIX). -/
def filename (s : List Char) : List Char :=
  match rfindLe '/' s s.length with
  | none => s
  | some i => s.drop (i+1)

/-- Path::extension (filesystem.cpp:179-185): substring from the last dot of
the WHOLE string (not of the filename) to the end; empty when no dot. -/
def extension (s : List Char) : List Char :=
  match rfindLe '.' s s.length with
  | none => []
  | some i => s.drop i

/-- Path::stem (filesystem.cpp:186-193): the C++ fetches st = filename() but
never uses st; it returns the WHOLE string truncated at its last dot, or the
whole string when no dot occurs. -/
def stem (s : List Char) : List Char :=
  match rfindLe '.' s s.length with
  | none => s
  | some i => s.take i

/-- complete (filesystem.cpp:293-311), POSIX branch.  cwd stands for the
buffer a successful currentdir call filled (the claims assume the working
directory is retrievable; a failure there throws before any path logic runs).
An absolute p (non-empty, leading slash) is returned as-is; an empty p
yields the cwd; otherwise cwd / p via operator/ (op_div: getcwd output is
non-empty, so the none branch is unreachable in real executions). -/
def complete (cwd p : List Char) : Option (List Char) :=
  if 0 < p.length ∧ p.head? = some '/' then some p
  else if p = [] then some cwd
  else op_div cwd p

/-- One iteration body of canonical's while loop (filesystem.cpp:316-337),
with fuel for the unbounded outer loop.  The four guarded branches are, in
the C++ source order: "/./" (erase(j, pos-j+1) where j = rfind('/', pos-2),
then continue with pos unchanged), trailing "/." (erase(rfind('/',pos-2)),
break), "/../" (erase(j, pos-j+2), continue), trailing "/.." (erase to end,
break); otherwise ++pos.  The size_t erase counts pos-j+1 and pos-j+2 wrap
to a huge value when j > pos+1 resp. j > pos+2 (possible via the pos = 1
rfind wrap of rfindArg), making erase truncate from j: the take branches.
A none from rfindArg means erase(npos,..) would throw std::out_of_range;
that case is folded into the none result. -/
def canonLoop : Nat → List Char → Nat → Option (List Char)
  | 0, _, _ => none
  | fuel + 1, s, pos =>
    match findFrom '.' s pos with
    | none => some s
    | some q =>
      if s[q-1]? = some '/' ∧ q < s.length - 1 ∧ s[q+1]? = some '/' then
        match rfindArg s q with
        | none => none
        | some j => canonLoop fuel (if j ≤ q + 1 then eraseCnt s j (q+1-j) else s.take j) q
      else if s[q-1]? = some '/' ∧ q = s.length - 1 then
        match rfindArg s q with
        | none => none
        | some j => some (s.take j)
      else if q < s.length - 2 ∧ s[q-1]? = some '/' ∧ s[q+1]? = some '.' ∧ s[q+2]? = some '/' then
        match rfindArg s q with
        | none => none
        | some j => canonLoop fuel (if j ≤ q + 2 then eraseCnt s j (q+2-j) else s.take j) q
      else if q = s.length - 2 ∧ s[q-1]? = some '/' ∧ s[q+1]? = some '.' then
        match rfindArg s q with
        | none => none
        | some j => some (s.take j)
      else canonLoop fuel s (q+1)

/-- canonical (filesystem.cpp:312-339): complete, forward_slashes (a no-op
on POSIX), then the dot-resolving scan starting at pos = 1.  Fuel
2*|s|+2: every iteration of a terminating C++ run strictly decreases the
measure 2*|s| - pos (++pos lowers it by 1, every erase that removes at
least one character lowers it by at least 2), and an iteration that changes
nothing (a zero-count erase, reachable via the pos = 1 rfind wrap) repeats
the identical state forever in the C++.  Hence none here is exactly the
C++ looping forever (or erase throwing on an npos position). -/
def canonical (cwd p : List Char) : Option (List Char) :=
  (complete cwd p).bind fun s => canonLoop (2 * s.length + 2) s 1

/-- Path::operator== (filesystem.cpp:116-119): strcmp of the canonical forms
of both sides, each computed against the same process cwd.  none models the
comparison never returning because canonical diverges or throws. -/
def pathEq? (cwd a b : List Char) : Option Bool := do
  let x ← canonical cwd a
  let y ← canonical cwd b
  pure (decide (x = y))

/-- Position i starts a lone "." or ".." path segment of s: the segment is
preceded by a slash (or starts the string) and followed by a slash (or the
end of the string). -/
def dotSegAt (s : List Char) (i : Nat) : Prop :=
  (i = 0 ∨ s[i-1]? = some '/') ∧ s[i]? = some '.' ∧
    ((s[i+1]? = none ∨ s[i+1]? = some '/') ∨
     (s[i+1]? = some '.' ∧ (s[i+2]? = none ∨ s[i+2]? = some '/')))

instance (s : List Char) (i : Nat) : Decidable (dotSegAt s i) := by
  unfold dotSegAt
  infer_instance

/-- The path s is free of "." and ".." segments (positions at or past the end
cannot carry a dot, so bounding i by the length loses nothing). -/
def NoDotSegs (s : List Char) : Prop := ∀ i, i < s.length → ¬ dotSegAt s i

instance (s : List Char) : Decidable (NoDotSegs s) := Nat.decidableBallLT _ _

/-- The host OS filesystem state, the external collaborator of section 6 of
the spec: which paths are directories and regular files, each directory's
raw readdir listing (as captured when opendir succeeds), plus per-path
failure knobs for the four mutating/open syscalls. -/
structure World where
  cwd : List Char
  dirs : List (List Char)
  files : List (List Char)
  entriesOf : List (List Char × List (List Char))
  unlinkFails : List (List Char)
  rmdirFails : List (List Char)
  openFails : List (List Char)
  mkdirFails : List (List Char)
deriving DecidableEq

/-- is_directory (filesystem.cpp:348-355): lstat succeeds and S_ISDIR. -/
def is_directory (w : World) (p : List Char) : Bool := decide (p ∈ w.dirs)

/-- is_regular_file (filesystem.cpp:340-347): lstat succeeds and S_ISREG. -/
def is_regular_file (w : World) (p : List Char) : Bool := decide (p ∈ w.files)

/-- The unlink syscall: succeeds iff p is a present regular file whose
removal is not vetoed by the failure knob; on success the file is gone. -/
def unlinkSys (w : World) (p : List Char) : Bool × World :=
  if p ∈ w.files ∧ p ∉ w.unlinkFails then (true, { w with files := w.files.erase p })
  else (false, w)

/-- The rmdir syscall: succeeds iff p is a present directory whose removal
is not vetoed by the failure knob; on success the directory is gone. -/
def rmdirSys (w : World) (p : List Char) : Bool × World :=
  if p ∈ w.dirs ∧ p ∉ w.rmdirFails then (true, { w with dirs := w.dirs.erase p })
  else (false, w)

/-- remove (filesystem.cpp:237-250, non-FS_DRYRUN build): rmdir for
directories, unlink otherwise, reporting the syscall result as a Bool. -/
def remove (w : World) (p : List Char) : Bool × World :=
  if is_directory w p then rmdirSys w p else unlinkSys w p

/-- The mkdir syscall: succeeds iff p does not exist yet and is not vetoed. -/
def mkdirSys (w : World) (p : List Char) : Bool × World :=
  if p ∉ w.dirs ∧ p ∉ w.files ∧ p ∉ w.mkdirFails then (true, { w with dirs := p :: w.dirs })
  else (false, w)

/-- create_directory (filesystem.cpp:364-371, non-FS_DRYRUN build): one mkdir
call whose return value is discarded; the function is declared void
(filesystem.h:57), so the caller receives only Unit. -/
def create_directory (w : World) (p : List Char) : Unit × World :=
  ((), (mkdirSys w p).2)

/-- directory_iterator state (filesystem.h:68-86): pending is the list of
raw entry names the stream will still deliver, with the current entry (dp)
at its head; pending = [] is the closed/end-sentinel state, which is also
what a default-constructed iterator holds. -/
structure DirIter where
  base : List Char
  pending : List (List Char)
deriving DecidableEq

/-- A frame of remove_all's explicit stack: std::pair of iterator and path. -/
abbrev Frame := DirIter × List Char

/-- A value-initialized frame, as produced by vector::resize: a
default-constructed (end-sentinel) iterator and an empty path. -/
def defaultFrame : Frame := (⟨[], []⟩, [])

/-- directory_iterator(const Path&) (filesystem.cpp:400-406): opendir, throw
std::runtime_error when it fails (modelled by the openFails knob and by a
path with no listing, i.e. not an openable directory), then one ++ so the
iterator already holds the first entry. -/
def openIter (w : World) (p : List Char) : Except Unit DirIter :=
  if p ∈ w.openFails then .error ()
  else match w.entriesOf.find? (fun e => decide (e.1 = p)) with
    | none => .error ()
    | some e => .ok ⟨p, e.2⟩

/-- Outcome of running one frame's for loop to completion: hung when a
Path::operator== canonicalization inside the dot filter never returns,
thrown when a nested directory_iterator constructor throws, failed w when a
file deletion returned false (remove_all returns false with world w), and
done w more when the iterator is exhausted with moredirs now equal to more. -/
inductive ScanRes where
  | hung
  | thrown
  | failed (w : World)
  | done (w : World) (more : List Frame)
deriving DecidableEq

/-- The inner for loop of remove_all (filesystem.cpp:266-276) over one
frame's iterator: skip entries whose filename compares == to "." or ".."
(operator== canonicalizes; note the ".." skip in the C++ actually fires on
the first comparison already because canonical("..") equals canonical(".")),
queue a frame (opening its iterator eagerly) for directory entries, and
delete other entries via remove, returning false out of remove_all on a
failed delete.  The p / d_name of operator* is joinT (the opened base path
is never empty).  The loop condition dir.first != end_it short-circuits on
the non-null stream handle while entries remain, so its Path comparison is
only reached at exhaustion, where the dir == nullptr && dp == nullptr
disjunct decides it; the exhaustion test is therefore pending = []. -/
def scanFrameAux (w : World) (base : List Char) (pend : List (List Char))
    (more : List Frame) : ScanRes :=
  match pend with
  | [] => .done w more
  | name :: rest =>
    let p2 := joinT base name
    match pathEq? w.cwd (filename p2) ['.'] with
    | none => .hung
    | some true => scanFrameAux w base rest more
    | some false =>
      match pathEq? w.cwd (filename p2) ['.', '.'] with
      | none => .hung
      | some true => scanFrameAux w base rest more
      | some false =>
        if is_directory w p2 then
          match openIter w p2 with
          | .error _ => .thrown
          | .ok it2 => scanFrameAux w base rest (more ++ [(it2, p2)])
        else
          let r := remove w p2
          if r.1 then scanFrameAux r.2 base rest more else .failed r.2

/-- Result of remove_all: the returned Bool together with the final world,
or the escape of an exception, or an internal canonicalization hang. -/
inductive RAResult where
  | ok (b : Bool) (w : World)
  | thrown
  | hung
deriving DecidableEq

/-- The while loop of remove_all (filesystem.cpp:262-285), one fuel per
iteration.  After the top frame's iterator is exhausted (scanFrameAux
done): when moredirs is empty, remove(dir.second) is called WITH ITS RESULT
DISCARDED and the frame is popped; otherwise dirstack.resize appends
moredirs.size() value-initialized frames (defaultFrame) and the std::move
destination begin(dirstack)+dirstack.size() is one past the new end, an
out-of-bounds write, so the queued frames never land inside dirstack (the
defined part of that undefined behaviour is modelled: dirstack holds the
default frames, and moredirs — never cleared, its elements only moved
from — keeps its size and is never emptied again). -/
def raLoop : World → List Frame → List Frame → Nat → Option RAResult
  | _, _, _, 0 => none
  | w, stack, more, fuel + 1 =>
    match stack.getLast? with
    | none => some (.ok true w)
    | some fr =>
      match scanFrameAux w fr.1.base fr.1.pending more with
      | .hung => some .hung
      | .thrown => some .thrown
      | .failed w' => some (.ok false w')
      | .done w' more' =>
        if more' = [] then
          raLoop (remove w' fr.2).2 stack.dropLast [] fuel
        else
          raLoop w' (stack.dropLast ++ [(⟨fr.1.base, []⟩, fr.2)]
            ++ List.replicate more'.length defaultFrame) more' fuel

/-- remove_all (filesystem.cpp:251-287): a non-directory is unlinked
directly; a directory starts the frame-stack loop with one frame whose
iterator construction may throw.  none means the fuel ran out, i.e. the
C++ loop had not returned within that many iterations (the theorems below
quantify over all fuel where divergence is claimed). -/
def remove_all (w : World) (p : List Char) (fuel : Nat) : Option RAResult :=
  if is_directory w p then
    match openIter w p with
    | .error _ => some .thrown
    | .ok it => raLoop w [(it, p)] [] fuel
  else
    some (.ok (unlinkSys w p).1 (unlinkSys w p).2)

/-- The spec scenario of claim C1: /tmp/t holds a.txt and sub, sub holds
b.txt; every syscall succeeds; readdir lists "." and ".." first. -/
def w1 : World :=
  { cwd := "/cwd".data
  , dirs := ["/tmp/t".data, "/tmp/t/sub".data]
  , files := ["/tmp/t/a.txt".data, "/tmp/t/sub/b.txt".data]
  , entriesOf := [("/tmp/t".data, [".".data, "..".data, "a.txt".data, "sub".data]),
                  ("/tmp/t/sub".data, [".".data, "..".data, "b.txt".data])]
  , unlinkFails := [], rmdirFails := [], openFails := [], mkdirFails := [] }

/-- The initial frame remove_all builds for /tmp/t in w1. -/
def fr1 : Frame := (⟨"/tmp/t".data, [".".data, "..".data, "a.txt".data, "sub".data]⟩, "/tmp/t".data)

/-- The frame queued for /tmp/t/sub during the scan of /tmp/t in w1. -/
def sf1 : Frame := (⟨"/tmp/t/sub".data, [".".data, "..".data, "b.txt".data]⟩, "/tmp/t/sub".data)

/-- w1 after the first pass over /tmp/t deleted a.txt. -/
def w1' : World := { w1 with files := ["/tmp/t/sub/b.txt".data] }

/-- Claim C4's minimal tree: directory /d containing one empty
subdirectory /d/s; every syscall succeeds. -/
def w4 : World :=
  { cwd := "/cwd".data
  , dirs := ["/d".data, "/d/s".data]
  , files := []
  , entriesOf := [("/d".data, [".".data, "..".data, "s".data]),
                  ("/d/s".data, [".".data, "..".data])]
  , unlinkFails := [], rmdirFails := [], openFails := [], mkdirFails := [] }

/-- The initial frame remove_all builds for /d in w4. -/
def fr4 : Frame := (⟨"/d".data, [".".data, "..".data, "s".data]⟩, "/d".data)

/-- The frame queued for /d/s during the scan of /d in w4. -/
def sf4 : Frame := (⟨"/d/s".data, [".".data, "..".data]⟩, "/d/s".data)

/-- Claim C5's counterexample world: a flat directory /f whose own rmdir is
denied, its single file deletable. -/
def w5 : World :=
  { cwd := "/cwd".data
  , dirs := ["/f".data]
  , files := ["/f/a".data]
  , entriesOf := [("/f".data, [".".data, "..".data, "a".data])]
  , unlinkFails := [], rmdirFails := ["/f".data], openFails := [], mkdirFails := [] }

/-- w5 after remove_all unlinked /f/a; /f itself survives its failed rmdir. -/
def w5fin : World := { w5 with files := [] }

/-- Witness world for claim C5's theorem: /g holds one file x whose unlink
is denied. -/
def w5w : World :=
  { cwd := "/cwd".data
  , dirs := ["/g".data]
  , files := ["/g/x".data]
  , entriesOf := [("/g".data, ["x".data])]
  , unlinkFails := ["/g/x".data], rmdirFails := [], openFails := [], mkdirFails := [] }

/-- Claim C6's counterexample world: /x is a directory that cannot be
opened for enumeration. -/
def w6 : World :=
  { cwd := "/cwd".data
  , dirs := ["/x".data]
  , files := []
  , entriesOf := []
  , unlinkFails := [], rmdirFails := [], openFails := ["/x".data], mkdirFails := [] }

/-- Witness world for claim C6's theorem: /q is a plain file. -/
def w6w : World :=
  { cwd := "/c".data
  , dirs := []
  , files := ["/q".data]
  , entriesOf := []
  , unlinkFails := [], rmdirFails := [], openFails := [], mkdirFails := [] }

/-- Claim C7's counterexample worlds: in w7a mkdir of /n succeeds, in w7b
the mkdir syscall is denied. -/
def w7a : World :=
  { cwd := "/cwd".data
  , dirs := []
  , files := []
  , entriesOf := []
  , unlinkFails := [], rmdirFails := [], openFails := [], mkdirFails := [] }

/-- See w7a. -/
def w7b : World := { w7a with mkdirFails := ["/n".data] }

/-- A hit of findFromGo lies at or after the start index and holds c. -/
theorem findFromGo_some (c : Char) : ∀ (l : List Char) (i q : Nat),
    findFromGo c l i = some q → i ≤ q ∧ l[q - i]? = some c := by
  intro l
  induction l with
  | nil => intro i q h; simp [findFromGo] at h
  | cons d rest ih =>
    intro i q h
    rw [findFromGo] at h
    split at h
    · cases h
      refine ⟨Nat.le_refl _, ?_⟩
      simp_all
    · obtain ⟨h1, h2⟩ := ih (i+1) q h
      refine ⟨by omega, ?_⟩
      have hq : q - i = (q - (i+1)) + 1 := by omega
      rw [hq]
      simpa using h2

/-- A hit of findFrom lies at or after pos and holds c. -/
theorem findFrom_some (c : Char) (s : List Char) (pos q : Nat)
    (h : findFrom c s pos = some q) : pos ≤ q ∧ s[q]? = some c := by
  obtain ⟨h1, h2⟩ := findFromGo_some c (s.drop pos) pos q h
  rw [List.getElem?_drop] at h2
  refine ⟨h1, ?_⟩
  have heq : pos + (q - pos) = q := by omega
  rwa [heq] at h2

/-- Searching at or past the end of the string finds nothing. -/
theorem findFrom_none_of_le (c : Char) (s : List Char) (pos : Nat)
    (h : s.length ≤ pos) : findFrom c s pos = none := by
  rw [findFrom, List.drop_eq_nil_of_le h]
  rfl

/-- An index holding a character is inside the string. -/
theorem lt_length_of_getElem?_some {s : List Char} {n : Nat} {a : Char}
    (h : s[n]? = some a) : n < s.length := by
  by_contra hc
  rw [List.getElem?_eq_none (Nat.le_of_not_lt hc)] at h
  cases h

/-- On a string free of dot segments, every dot canonLoop finds fails all
four branch guards, so the scan only advances pos and returns the string
unchanged (fuel s.length+1-pos+1 suffices since pos grows each step). -/
theorem canonLoop_id_of_noDotSegs (s : List Char) (hs : NoDotSegs s) :
    ∀ fuel pos, 1 ≤ pos → s.length < fuel + pos → canonLoop (fuel+1) s pos = some s := by
  intro fuel
  induction fuel with
  | zero =>
    intro pos h1 h2
    rw [canonLoop, findFrom_none_of_le _ _ _ (by omega)]
  | succ g ih =>
    intro pos h1 h2
    rw [canonLoop]
    cases hf : findFrom '.' s pos with
    | none => rfl
    | some q =>
      obtain ⟨hpq, hq⟩ := findFrom_some '.' s pos q hf
      have hqlen : q < s.length := lt_length_of_getElem?_some hq
      have hnd := hs q hqlen
      have hc1 : ¬ (s[q-1]? = some '/' ∧ q < s.length - 1 ∧ s[q+1]? = some '/') := by
        rintro ⟨a, b, c⟩
        exact hnd ⟨Or.inr a, hq, Or.inl (Or.inr c)⟩
      have hc2 : ¬ (s[q-1]? = some '/' ∧ q = s.length - 1) := by
        rintro ⟨a, b⟩
        refine hnd ⟨Or.inr a, hq, Or.inl (Or.inl ?_)⟩
        exact List.getElem?_eq_none (by omega)
      have hc3 : ¬ (q < s.length - 2 ∧ s[q-1]? = some '/' ∧ s[q+1]? = some '.' ∧ s[q+2]? = some '/') := by
        rintro ⟨a, b, c, d⟩
        exact hnd ⟨Or.inr b, hq, Or.inr ⟨c, Or.inr d⟩⟩
      have hc4 : ¬ (q = s.length - 2 ∧ s[q-1]? = some '/' ∧ s[q+1]? = some '.') := by
        rintro ⟨a, b, c⟩
        refine hnd ⟨Or.inr b, hq, Or.inr ⟨c, Or.inl ?_⟩⟩
        exact List.getElem?_eq_none (by omega)
      simp only [hc1, hc2, hc3, hc4, if_false]
      exact ih (q+1) (by omega) (by omega)

/-- canonical maps an absolute, dot-segment-free path to itself. -/
theorem canonical_fixed_of_clean (cwd p : List Char)
    (h1 : p.head? = some '/') (h2 : NoDotSegs p) : canonical cwd p = some p := by
  have hlen : 0 < p.length := by
    cases p with
    | nil => simp at h1
    | cons a l => simp
  have hcomp : complete cwd p = some p := by
    rw [complete, if_pos ⟨hlen, h1⟩]
  rw [canonical, hcomp, Option.some_bind]
  have h := canonLoop_id_of_noDotSegs p h2 (2 * p.length + 1) 1 (Nat.le_refl 1) (by omega)
  simpa using h

/-- A non-empty replicate ends in its repeated element. -/
theorem getLast?_replicate_succ (n : Nat) (a : Frame) :
    (List.replicate (n+1) a).getLast? = some a := by
  rw [List.replicate_succ', List.getLast?_concat]

/-- Once the top of dirstack is a value-initialized frame and moredirs is
non-empty, every further iteration of remove_all's loop scans an exhausted
iterator, keeps moredirs as it is, and pushes more default frames: the loop
never returns, whatever the fuel. -/
theorem raLoop_stuck (fuel : Nat) :
    ∀ (w : World) (stack more : List Frame),
      stack.getLast? = some defaultFrame → more ≠ [] →
      raLoop w stack more fuel = none := by
  induction fuel with
  | zero => intro w stack more _ _; rfl
  | succ g ih =>
    intro w stack more hlast hmore
    rw [raLoop]
    simp only [hlast]
    simp only [show scanFrameAux w defaultFrame.1.base defaultFrame.1.pending more
      = .done w more from rfl]
    rw [if_neg hmore]
    apply ih
    · cases more with
      | nil => exact absurd rfl hmore
      | cons m ms =>
        rw [List.getLast?_append_of_ne_nil]
        · exact getLast?_replicate_succ ms.length defaultFrame
        · simp [List.replicate_succ]
    · exact hmore

/-- One loop iteration whose frame scan ends with a non-empty moredirs:
the stack grows by default frames and moredirs is carried over unchanged. -/
theorem raLoop_step_grow (w w' : World) (fr : Frame) (stack more more' : List Frame) (fuel : Nat)
    (hscan : scanFrameAux w fr.1.base fr.1.pending more = .done w' more')
    (hne : more' ≠ []) :
    raLoop w (stack ++ [fr]) more (fuel+1)
      = raLoop w' (stack ++ [(⟨fr.1.base, []⟩, fr.2)]
          ++ List.replicate more'.length defaultFrame) more' fuel := by
  rw [raLoop]
  simp only [List.getLast?_concat]
  simp only [hscan]
  rw [if_neg hne]
  simp only [List.dropLast_concat]

/-- One loop iteration whose frame scan hits a failed file deletion: the
loop returns false at once with exactly the scan's world. -/
theorem raLoop_fail_step (w w' : World) (fr : Frame) (stack more : List Frame) (fuel : Nat)
    (hscan : scanFrameAux w fr.1.base fr.1.pending more = .failed w') :
    raLoop w (stack ++ [fr]) more (fuel+1) = some (.ok false w') := by
  rw [raLoop]
  simp only [List.getLast?_concat]
  simp only [hscan]

/-- Claim C1: on the spec scenario (directory /tmp/t containing a.txt and
sub, sub containing b.txt, every single-entry delete succeeding), the claim
says remove_all returns success and all four paths cease to exist; the code
instead never returns: after the root scan moredirs is never cleared and
the queued frame is moved past the end of dirstack, so the loop runs out of
any amount of fuel. -/
theorem remove_all_tree_scenario_never_returns :
    ∀ fuel, remove_all w1 ("/tmp/t".data) fuel = none := by
  intro fuel
  cases fuel with
  | zero => rfl
  | succ n =>
    have h0 : remove_all w1 ("/tmp/t".data) (n+1) = raLoop w1 ([] ++ [fr1]) [] (n+1) := rfl
    rw [h0, raLoop_step_grow w1 w1' fr1 [] [] [sf1] n (by decide) (by simp)]
    exact raLoop_stuck n _ _ _ (by rfl) (by simp)

/-- Claim C2: the claim says a lone "." segment is deleted together with one
adjacent separator, every other segment kept, so Path("./x") equals
Path("/home/u/x") under cwd /home/u.  The code's "." branch erases from the
slash BEFORE the preceding segment: canonical turns /home/u/./x into
/home/x (segment u is gone) and the equality is false. -/
theorem canonical_lone_dot_deletes_preceding_segment :
    canonical ("/home/u".data) ("./x".data) = some ("/home/x".data) ∧
    pathEq? ("/home/u".data) ("./x".data) ("/home/u/x".data) = some false := by
  constructor
  · decide
  · decide

/-- Claim C3: the claim says the scan repeats until no "." or ".." segment
remains, fully resolving /a/b/c/../../d.  The code makes one left-to-right
pass whose position never moves back, so after collapsing /c/.. the exposed
".." to the left of the position is missed: the result /a/b/../d still
contains a ".." segment. -/
theorem canonical_leaves_unresolved_dotdot :
    canonical ("/cwd".data) ("/a/b/c/../../d".data) = some ("/a/b/../d".data) ∧
    ¬ NoDotSegs ("/a/b/../d".data) := by
  constructor
  · decide
  · decide

/-- Claim C4: the claim says remove_all terminates on every finite tree, in
particular when the tree contains a subdirectory.  On /d containing just
the empty subdirectory /d/s the loop never terminates, for any fuel. -/
theorem remove_all_with_subdirectory_never_terminates :
    ∀ fuel, remove_all w4 ("/d".data) fuel = none := by
  intro fuel
  cases fuel with
  | zero => rfl
  | succ n =>
    have h0 : remove_all w4 ("/d".data) (n+1) = raLoop w4 ([] ++ [fr4]) [] (n+1) := rfl
    rw [h0, raLoop_step_grow w4 w4 fr4 [] [] [sf4] n (by decide) (by simp)]
    exact raLoop_stuck n _ _ _ (by rfl) (by simp)

/-- Claim C5 counterexample: in w5 the rmdir of /f itself fails after /f's
iteration is exhausted, yet remove_all returns true (the result of
remove(dir.second) is discarded) and /f still exists — refuting the claim
that any failing single-entry deletion makes remove_all return failure. -/
theorem remove_all_returns_success_despite_rmdir_failure :
    remove_all w5 ("/f".data) 3 = some (.ok true w5fin) ∧
    is_directory w5fin ("/f".data) = true ∧
    rmdirSys w5 ("/f".data) = (false, w5) := by
  refine ⟨by decide, by decide, by decide⟩

/-- Claim C5 as amended: when the deletion of a FILE entry encountered
during enumeration fails, remove_all does return overall failure
immediately — the final world is exactly the world after the failed remove,
with the remaining entries of the frame and the rest of the stack left
untouched.  (Directory removal after exhaustion, by contrast, has its
result discarded; see the counterexample.) -/
theorem remove_all_aborts_on_file_delete_failure
    (w w' : World) (stack more : List Frame) (base q name : List Char)
    (rest : List (List Char)) (fuel : Nat)
    (h1 : pathEq? w.cwd (filename (joinT base name)) ['.'] = some false)
    (h2 : pathEq? w.cwd (filename (joinT base name)) ['.', '.'] = some false)
    (h3 : is_directory w (joinT base name) = false)
    (h4 : remove w (joinT base name) = (false, w')) :
    raLoop w (stack ++ [(⟨base, name :: rest⟩, q)]) more (fuel + 1) = some (.ok false w') := by
  apply raLoop_fail_step
  simp only [scanFrameAux]
  simp only [h1, h2, h3, h4, Bool.false_eq_true, if_false]

/-- Witness for claim C5's theorem at the concrete world w5w, where the
unlink of /g/x is denied. -/
theorem remove_all_aborts_on_file_delete_failure_witness :
    pathEq? w5w.cwd (filename (joinT ("/g".data) ("x".data))) ['.'] = some false ∧
    is_directory w5w (joinT ("/g".data) ("x".data)) = false ∧
    remove w5w (joinT ("/g".data) ("x".data)) = (false, w5w) ∧
    raLoop w5w ([] ++ [(⟨"/g".data, "x".data :: []⟩, "/g".data)]) [] (0 + 1)
      = some (.ok false w5w) :=
  ⟨by decide, by decide, by decide,
    remove_all_aborts_on_file_delete_failure w5w w5w [] [] ("/g".data) ("/g".data)
      ("x".data) [] 0 (by decide) (by decide) (by decide) (by decide)⟩

/-- Claim C6 counterexample: /x is a directory whose opendir fails, so the
directory_iterator constructor's std::runtime_error propagates out of
remove_all — refuting the claim that remove_all never raises. -/
theorem remove_all_throws_on_unopenable_directory :
    remove_all w6 ("/x".data) 5 = some RAResult.thrown := by decide

/-- Claim C6 as amended: exists, is_directory, is_regular_file and remove
are total boolean functions (their embeddings return Bool outright), and
remove_all never raises when its argument is not a directory: it returns
the unlink syscall's boolean.  Only the directory-enumeration path can let
the directory_iterator exception escape (see the counterexample). -/
theorem remove_all_nondirectory_never_throws (w : World) (p : List Char) (fuel : Nat)
    (h : is_directory w p = false) :
    remove_all w p fuel = some (.ok (unlinkSys w p).1 (unlinkSys w p).2) := by
  rw [remove_all]
  simp only [h, Bool.false_eq_true, if_false]

/-- Witness for claim C6's theorem: /q in w6w is a plain file. -/
theorem remove_all_nondirectory_never_throws_witness :
    is_directory w6w ("/q".data) = false ∧
    remove_all w6w ("/q".data) 7
      = some (.ok (unlinkSys w6w ("/q".data)).1 (unlinkSys w6w ("/q".data)).2) :=
  ⟨by decide, remove_all_nondirectory_never_throws w6w ("/q".data) 7 (by decide)⟩

/-- Claim C7 counterexample: mkdir of /n succeeds in w7a (the world gains
the directory) and is denied in w7b (the world is unchanged), yet
create_directory hands the caller the identical return value in both runs —
refuting the claim that it reports the syscall's success or failure as a
boolean return value (it is declared void, filesystem.h:57). -/
theorem create_directory_result_independent_of_outcome :
    (create_directory w7a ("/n".data)).2 ≠ w7a ∧
    (create_directory w7b ("/n".data)).2 = w7b ∧
    (create_directory w7a ("/n".data)).1 = (create_directory w7b ("/n".data)).1 := by
  refine ⟨by decide, by decide, by decide⟩

/-- Claim C7 as amended: create_directory performs its one mkdir syscall
(when the syscall succeeds the directory really is created), but the
syscall's outcome is discarded: the value returned to the caller is the
same whatever world and path the call ran against. -/
theorem create_directory_effect_but_unit_result (wa wb : World) (pa pb : List Char)
    (h : pa ∉ wa.dirs ∧ pa ∉ wa.files ∧ pa ∉ wa.mkdirFails) :
    (create_directory wa pa).1 = (create_directory wb pb).1 ∧
    (create_directory wa pa).2.dirs = pa :: wa.dirs := by
  constructor
  · rfl
  · rw [create_directory, mkdirSys, if_pos h]

/-- Witness for claim C7's theorem at w7a and /n. -/
theorem create_directory_effect_but_unit_result_witness :
    ("/n".data ∉ w7a.dirs ∧ "/n".data ∉ w7a.files ∧ "/n".data ∉ w7a.mkdirFails) ∧
    (create_directory w7a ("/n".data)).1 = (create_directory w7b ("/m".data)).1 ∧
    (create_directory w7a ("/n".data)).2.dirs = "/n".data :: w7a.dirs :=
  ⟨by decide, create_directory_effect_but_unit_result w7a w7b ("/n".data) ("/m".data) (by decide)⟩

/-- Claim C8: the claim says stem(p) + extension(p) equals filename(p) for a
filename with exactly one dot.  At p = /x/report.tar the code's stem slices
the WHOLE path before its last dot (the filename fetched inside stem is
never used), so stem + extension rebuilds the whole path /x/report.tar,
not the filename report.tar. -/
theorem stem_plus_extension_is_whole_path_not_filename :
    op_plus (stem ("/x/report.tar".data)) (extension ("/x/report.tar".data))
      = "/x/report.tar".data ∧
    filename ("/x/report.tar".data) = "report.tar".data ∧
    op_plus (stem ("/x/report.tar".data)) (extension ("/x/report.tar".data))
      ≠ filename ("/x/report.tar".data) := by
  refine ⟨by decide, by decide, by decide⟩

/-- Claim C9: for every absolute path already free of "." and ".."
segments, canonical is idempotent (it is in fact the identity on such
paths, so applying it to its own result changes nothing). -/
theorem canonical_idempotent_on_clean_absolute (cwd p : List Char)
    (h1 : p.head? = some '/') (h2 : NoDotSegs p) :
    (canonical cwd p).bind (canonical cwd) = canonical cwd p := by
  rw [canonical_fixed_of_clean cwd p h1 h2, Option.some_bind]
  exact canonical_fixed_of_clean cwd p h1 h2

/-- Witness for claim C9's theorem at cwd /h and p = /a/b. -/
theorem canonical_idempotent_on_clean_absolute_witness :
    "/a/b".data.head? = some '/' ∧ NoDotSegs ("/a/b".data) ∧
    (canonical ("/h".data) ("/a/b".data)).bind (canonical ("/h".data))
      = canonical ("/h".data) ("/a/b".data) :=
  ⟨by decide, by decide,
    canonical_idempotent_on_clean_absolute ("/h".data) ("/a/b".data) (by decide) (by decide)⟩

/-- Claim C10: Path::operator/ and Path::operator/= read the last character
of the left-hand string unconditionally (s.back()), so the out-of-range
read is avoided exactly when the left operand is non-empty: both joins
produce a value precisely for non-empty left operands. -/
theorem op_div_defined_iff_lhs_nonempty (a b : List Char) :
    ((op_div a b).isSome ↔ a ≠ []) ∧ ((op_div_assign a b).isSome ↔ a ≠ []) := by
  cases h : a.getLast? with
  | none =>
    have ha : a = [] := by
      cases a with
      | nil => rfl
      | cons x xs =>
        exfalso
        have hs : (x :: xs).getLast?.isSome := List.getLast?_isSome.2 (by simp)
        rw [h] at hs
        cases hs
    subst ha
    simp [op_div, op_div_assign]
  | some c =>
    have ha : a ≠ [] := by
      intro hc
      subst hc
      simp [List.getLast?] at h
    have e1 : op_div a b = if is_slash c then some (a ++ b) else some (a ++ '/' :: b) := by
      rw [op_div, h]
    have e2 : op_div_assign a b = if is_slash c then some (a ++ b) else some (a ++ '/' :: b) := by
      rw [op_div_assign, h]
    constructor
    · rw [e1]
      constructor
      · intro _; exact ha
      · intro _; split <;> rfl
    · rw [e2]
      constructor
      · intro _; exact ha
      · intro _; split <;> rfl

end boostfs
